import Mathlib

/-!
Shallow embedding of the dontstarve process supervisor core (Go package proc):
the closable Channel primitive (helper.go), the named pipe binding and the
fan-out reader (the pipe revision embedded in helper.go, which is the one
consistent with the two-valued Channel.Recv), and the lifecycle shutdown path
(proc.go), together with theorems settling the specification claims.
-/

set_option autoImplicit false

namespace DontStarve

/-- Byte chunk, the payload of a Stream (Go type []byte), modelled as a list of
byte values. -/
abbrev Bytes := List Nat

/-- Embeds helper.go's Channel[T]: closed models the Atomic[bool] flag's value;
chClosed, buf and cap model the underlying Go channel ch (its own closed state,
its buffered contents in FIFO order, and its capacity). -/
structure Channel (T : Type) where
  closed : Bool
  chClosed : Bool
  buf : List T
  cap : Nat
  deriving DecidableEq

/-- helper.go MakeChannel[T](buffer int): a fresh open channel with the given
capacity and empty buffer. -/
def MakeChannel (T : Type) (buffer : Nat) : Channel T :=
  { closed := false, chClosed := false, buf := [], cap := buffer }

/-- Outcome of the blocking Send (a void method in Go): the call either returns
(carrying the updated channel state), stays blocked awaiting capacity, or hits
the Go runtime panic raised by sending on an already-closed channel. -/
inductive SendRes (T : Type) where
  | returned (c : Channel T)
  | blocked (c : Channel T)
  | panicked
  deriving DecidableEq

/-- The raw Go statement c.ch <- v: panics if the underlying channel is closed,
enqueues if there is room, otherwise blocks the sender. -/
def rawSendStep {T : Type} (c : Channel T) (v : T) : SendRes T :=
  if c.chClosed then .panicked
  else if c.buf.length < c.cap then .returned { c with buf := c.buf ++ [v] }
  else .blocked c

/-- helper.go Channel.Send: if the closed flag is set it returns at once
(without any return value); otherwise it performs the raw channel send. -/
def Channel.Send {T : Type} (c : Channel T) (v : T) : SendRes T :=
  if c.closed then .returned c
  else rawSendStep c v

/-- The caller-visible result of a Send call that returns: Go's Send has no
return value, so every returning call yields only the empty tuple; a blocked or
panicking call yields nothing to its caller. -/
def sendCallerResult {T : Type} : SendRes T → Option Unit
  | .returned _ => some ()
  | .blocked _ => none
  | .panicked => none

/-- Outcome of the non-blocking TrySend: it always returns (with a Bool), save
for the runtime panic on a send to a closed underlying channel. -/
inductive TrySendRes (T : Type) where
  | returned (c : Channel T) (ok : Bool)
  | panicked
  deriving DecidableEq

/-- helper.go Channel.TrySend: false if the closed flag is set; otherwise a
select with a default case around c.ch <- v, which succeeds only when the
buffer has room and fails without waiting otherwise. -/
def Channel.TrySend {T : Type} (c : Channel T) (v : T) : TrySendRes T :=
  if c.closed then .returned c false
  else if c.chClosed then .panicked
  else if c.buf.length < c.cap then .returned { c with buf := c.buf ++ [v] } true
  else .returned c false

/-- Outcome of a receive: the call returns (an Option standing for the Go pair
of value and present-value flag), or stays blocked on an open empty channel. -/
inductive RecvRes (T : Type) where
  | returned (c : Channel T) (v : Option T)
  | blocked (c : Channel T)
  deriving DecidableEq

/-- helper.go Channel.Recv: if the closed flag is set it returns the zero value
with flag false at once; otherwise the raw receive dequeues the oldest buffered
item, reports no value on a closed drained channel, and blocks otherwise. -/
def Channel.Recv {T : Type} (c : Channel T) : RecvRes T :=
  if c.closed then .returned c none
  else
    match c.buf with
    | x :: rest => .returned { c with buf := rest } (some x)
    | [] => if c.chClosed then .returned c none else .blocked c

/-- helper.go Channel.TryRecv: if the closed flag is set it returns no value at
once; otherwise a select with default around a single-valued receive. On a
closed drained underlying channel that receive is ready and yields the zero
value, which the code reports with flag true (sequentially unreachable, since
the flag is checked first). -/
def Channel.TryRecv {T : Type} [Inhabited T] (c : Channel T) : RecvRes T :=
  if c.closed then .returned c none
  else
    match c.buf with
    | x :: rest => .returned { c with buf := rest } (some x)
    | [] => if c.chClosed then .returned c (some default) else .returned c none

/-- helper.go Channel.Closed: a load of the closed flag. -/
def Channel.Closed {T : Type} (c : Channel T) : Bool := c.closed

/-- helper.go Channel.Close: a no-op when the flag is already set; otherwise it
closes the underlying channel (under the lock) and then stores true into the
flag. Buffered items stay in the buffer. -/
def Channel.Close {T : Type} (c : Channel T) : Channel T :=
  if c.closed then c
  else { c with chClosed := true, closed := true }

/-- Where a complete Close call is interleaved relative to the two steps of a
concurrent Send (the lock-guarded flag load, then the unguarded raw channel
send). The lock in Close guards only the flag load, so a Close may run whole
between the two Send steps. -/
inductive RaceInterleaving where
  | closeBeforeLoad
  | closeBetweenLoadAndSend
  | closeAfterSendCompletes
  deriving DecidableEq

/-- Outcome of Send(v) racing a Close under each interleaving: in the middle
interleaving the Send has already read the flag as false, so after the Close it
still executes the raw send on the now-closed underlying channel. -/
def sendRacingClose {T : Type} (c : Channel T) (v : T) : RaceInterleaving → SendRes T
  | .closeBeforeLoad => (c.Close).Send v
  | .closeBetweenLoadAndSend => if c.closed then .returned c else rawSendStep c.Close v
  | .closeAfterSendCompletes => c.Send v

/-- Stream = Channel of byte chunks, the alias both pipe revisions declare. -/
abbrev Stream := Channel Bytes

/-- options.go Options: the configuration the supervisor is built from. -/
structure Options where
  Name : String
  Args : List String
  WorkDir : String
  Env : List String
  Stdin : Bool
  Stdout : Bool
  Stderr : Bool
  MaxWaitTime : Nat
  deriving DecidableEq

/-- The Proc fields read and written by the bind operations: proc models the
p.proc field (none while the os.Process pointer is nil, i.e. until Start has
succeeded; some pid after), and the three per-direction subscriber registries
are association lists from subscriber name to Stream. -/
structure Proc where
  proc : Option Int
  stdinChs : List (String × Stream)
  stdoutChs : List (String × Stream)
  stderrChs : List (String × Stream)
  options : Options
  deriving DecidableEq

/-- proc.go Proc.PID: -1 while p.proc is nil, else the recorded process id. -/
def Proc.PID (p : Proc) : Int :=
  match p.proc with
  | none => -1
  | some pid => pid

/-- Go map assignment m[name] = ch on a string-keyed map, as an association
list update (insert or replace). -/
def mapSet {α : Type} (m : List (String × α)) (k : String) (v : α) :
    List (String × α) :=
  (k, v) :: m.filter (fun e => e.1 != k)

/-- Result of a bind call: a runtime panic carrying the formatted message, or a
normal return of the updated Proc and the returned stream pointer (none models
the nil returned when the direction is disabled). -/
inductive BindResult where
  | panicked (msg : String)
  | ok (p : Proc) (s : Option Stream)
  deriving DecidableEq

/-- StdinPipe from the pipe revision embedded in helper.go: panic if
PID() != -1, nil if stdin was not enabled, else allocate an unbuffered stream,
register it under the name, and return it. -/
def Proc.StdinPipe (p : Proc) (name : String) : BindResult :=
  if p.PID ≠ -1 then .panicked ("bind pipe after process started: " ++ name)
  else if ¬ p.options.Stdin then .ok p none
  else .ok { p with stdinChs := mapSet p.stdinChs name (MakeChannel Bytes 0) }
    (some (MakeChannel Bytes 0))

/-- StdoutPipe, same shape as StdinPipe for the stdout direction. -/
def Proc.StdoutPipe (p : Proc) (name : String) : BindResult :=
  if p.PID ≠ -1 then .panicked ("bind pipe after process started: " ++ name)
  else if ¬ p.options.Stdout then .ok p none
  else .ok { p with stdoutChs := mapSet p.stdoutChs name (MakeChannel Bytes 0) }
    (some (MakeChannel Bytes 0))

/-- StderrPipe, same shape as StdinPipe for the stderr direction. -/
def Proc.StderrPipe (p : Proc) (name : String) : BindResult :=
  if p.PID ≠ -1 then .panicked ("bind pipe after process started: " ++ name)
  else if ¬ p.options.Stderr then .ok p none
  else .ok { p with stderrChs := mapSet p.stderrChs name (MakeChannel Bytes 0) }
    (some (MakeChannel Bytes 0))

/-- The three I/O directions. -/
inductive Dir where
  | stdin
  | stdout
  | stderr
  deriving DecidableEq

/-- The bind operation of a direction. -/
def bindPipe : Dir → Proc → String → BindResult
  | .stdin => Proc.StdinPipe
  | .stdout => Proc.StdoutPipe
  | .stderr => Proc.StderrPipe

/-- Whether a direction was enabled in the options. -/
def dirEnabled : Dir → Options → Bool
  | .stdin, o => o.Stdin
  | .stdout, o => o.Stdout
  | .stderr, o => o.Stderr

/-- The subscriber registry of a direction. -/
def dirRegistry : Dir → Proc → List (String × Stream)
  | .stdin, p => p.stdinChs
  | .stdout, p => p.stdoutChs
  | .stderr, p => p.stderrChs

/-- Error values returned along the lifecycle and reader paths: the two
context sentinels, wrapped I/O and exit errors, the pool overload error, and
fmt.Errorf name wrapping. -/
inductive GoErr where
  | canceled
  | deadlineExceeded
  | ioErr (msg : String)
  | exitErr (code : Nat)
  | poolOverload
  | named (name : String) (e : GoErr)
  deriving DecidableEq

/-- The observable state of a context: whether Done() is closed and what
Err() returns (some canceled or some deadlineExceeded once done). -/
structure CtxState where
  done : Bool
  err : Option GoErr
  deriving DecidableEq

/-- helper.go isCtxDone: selects on ctx.Done() with a default; when done it
returns nil if ctx.Err() is context.Canceled and the error itself otherwise. -/
def isCtxDone (ctx : CtxState) : Bool × Option GoErr :=
  if ctx.done then
    if ctx.err = some .canceled then (true, none) else (true, ctx.err)
  else (false, none)

/-- What finally stops the scanner loop: end of file (Scan false with nil Err)
or a read error such as an over-long line (Scan false with that Err). -/
inductive ScanEnd where
  | eof
  | readErr (e : GoErr)
  deriving DecidableEq

/-- Return value of the reader goroutine body in listenOutStream (helper.go
revision). Each list entry is one successfully scanned line: the ctx state at
its check, and the first failed pool submission for that line (subscriber name
and pool error), if any. After the listed iterations the Scan loop stops as
described by the ScanEnd, and the body returns scanner.Err(). -/
def listenOutStreamResult :
    List (CtxState × Option (String × GoErr)) → ScanEnd → Option GoErr
  | [], .eof => none
  | [], .readErr e => some e
  | (c, sub) :: rest, stop =>
    match isCtxDone c with
    | (true, e) => e
    | (false, _) =>
      match sub with
      | some (n, pe) => some (.named n pe)
      | none => listenOutStreamResult rest stop

/-- The dispatch deadline from time.Second * 20 in the select of the dispatch
task (helper.go revision of listenOutStream), in seconds. -/
def dispatchDeadline : Nat := 20

/-- The three cases of the dispatch task's select: ctx.Done(), the 20 second
timer, and the enqueue into the subscriber's stream. -/
inductive SelCase where
  | ctxDone
  | timeout
  | enqueue
  deriving DecidableEq

/-- First-ready times, in seconds from the start of the dispatch task, of the
two external select cases: when the shared cancellation scope fires and when
the subscriber's stream can accept the chunk (none = never). -/
structure SelTimes where
  ctxDone : Option Nat
  enqReady : Option Nat
  deriving DecidableEq

/-- The time at which each select case becomes ready: the timer case always
fires at the deadline. -/
def caseTime (t : SelTimes) : SelCase → Option Nat
  | .ctxDone => t.ctxDone
  | .timeout => some dispatchDeadline
  | .enqueue => t.enqReady

/-- The time at which the select completes: the earliest ready time among the
cases; a case that never becomes ready contributes nothing below the timer. -/
def selMin (t : SelTimes) : Nat :=
  min (min dispatchDeadline (t.ctxDone.getD dispatchDeadline))
    (t.enqReady.getD dispatchDeadline)

/-- A select case can win exactly when it is ready at the completion time
(Go's select picks among the ready cases, nondeterministically on ties). -/
def possibleWinner (t : SelTimes) (c : SelCase) : Prop :=
  caseTime t c = some (selMin t)

/-- Effect of the dispatch task on the subscriber's stream buffer: the chunk is
appended when the enqueue case wins and dropped otherwise. -/
def dispatchChunk (c : SelCase) (chunk : Bytes) (buf : List Bytes) : List Bytes :=
  match c with
  | .enqueue => buf ++ [chunk]
  | _ => buf

/-- The signals delivered by the three termination operations. -/
inductive Sig where
  | SIGTERM
  | SIGINT
  | SIGKILL
  deriving DecidableEq

/-- The observable steps of proc.go's shutdown and termination paths, in the
order Proc.close performs them; the deferred worker pool release runs last, at
return. kill is listed so its absence from the close sequence is statable. -/
inductive ProcAction where
  | closeStdinStreams
  | closeStdinPipe
  | closeStdoutStreams
  | closeStdoutPipe
  | closeStderrStreams
  | closeStderrPipe
  | cancelCtx
  | waitGroup
  | waitCmdRaced
  | releaseWorkerPool
  | signal (s : Sig)
  | kill
  deriving DecidableEq

/-- The step sequence of Proc.close as written: close every registered stream
and the underlying handle for each direction (with no nil checks and no option
guards), cancel the scope, then wait on the task group when MaxWaitTime is
zero and otherwise race cmd.Wait against the timer; the deferred pool release
runs at return. -/
def closeActions (maxWaitTime : Nat) : List ProcAction :=
  [.closeStdinStreams, .closeStdinPipe, .closeStdoutStreams, .closeStdoutPipe,
    .closeStderrStreams, .closeStderrPipe, .cancelCtx]
    ++ (if maxWaitTime = 0 then [ProcAction.waitGroup] else [ProcAction.waitCmdRaced])
    ++ [ProcAction.releaseWorkerPool]

/-- Which of the two raced events fires first in the final wait of Proc.close
when MaxWaitTime is nonzero: the time.After timer, or the goroutine delivering
cmd.Wait's result. -/
inductive CloseWaitRace where
  | timerFires
  | cmdWaitReturns
  deriving DecidableEq

/-- The error Proc.close returns: the task group's result when MaxWaitTime is
zero; otherwise context.DeadlineExceeded when the timer wins the race and the
process's own wait result when the wait wins. -/
def closeResult (maxWaitTime : Nat) (groupRes : Option GoErr)
    (race : CloseWaitRace) (cmdRes : Option GoErr) : Option GoErr :=
  if maxWaitTime = 0 then groupRes
  else
    match race with
    | .timerFires => some .deadlineExceeded
    | .cmdWaitReturns => cmdRes

/-- errors.Join of two optional errors: the list of the non-nil ones, which is
nil (empty) exactly when both are nil, and otherwise keeps both. -/
def errorsJoin (a b : Option GoErr) : List GoErr := a.toList ++ b.toList

/-- proc.go Proc.Terminate: nil result with no actions when p.proc is nil;
otherwise the full close sequence, then SIGTERM delivery, returning
errors.Join of the close error and the signal error. -/
def Terminate (started : Bool) (mw : Nat) (closeErr signalErr : Option GoErr) :
    List ProcAction × List GoErr :=
  if started then
    (closeActions mw ++ [ProcAction.signal .SIGTERM], errorsJoin closeErr signalErr)
  else ([], [])

/-- proc.go Proc.Interrupt: as Terminate, delivering SIGINT. -/
def Interrupt (started : Bool) (mw : Nat) (closeErr signalErr : Option GoErr) :
    List ProcAction × List GoErr :=
  if started then
    (closeActions mw ++ [ProcAction.signal .SIGINT], errorsJoin closeErr signalErr)
  else ([], [])

/-- proc.go Proc.Kill: as Terminate, delivering SIGKILL. -/
def Kill (started : Bool) (mw : Nat) (closeErr signalErr : Option GoErr) :
    List ProcAction × List GoErr :=
  if started then
    (closeActions mw ++ [ProcAction.signal .SIGKILL], errorsJoin closeErr signalErr)
  else ([], [])

/-- Which fields NewProc leaves non-nil: each pipe handle exists iff its
direction was enabled, and the worker pool and task group exist iff at least
one direction was enabled. -/
structure ProcHandles where
  stdinPipe : Bool
  stdoutPipe : Bool
  stderrPipe : Bool
  workerPool : Bool
  group : Bool
  deriving DecidableEq

/-- The handle population performed by proc.go NewProc for given options. -/
def NewProcHandles (o : Options) : ProcHandles :=
  { stdinPipe := o.Stdin
    stdoutPipe := o.Stdout
    stderrPipe := o.Stderr
    workerPool := o.Stdin || o.Stdout || o.Stderr
    group := o.Stdin || o.Stdout || o.Stderr }

/-- The nil dereferences Proc.close can hit. -/
inductive NilFault where
  | nilStdinPipe
  | nilStdoutPipe
  | nilStderrPipe
  | nilGroup
  | nilWorkerPool
  deriving DecidableEq

/-- The first nil dereference Proc.close hits, following its step order:
the three pipe Close calls have no nil checks; group.Wait runs only when
MaxWaitTime is zero; the deferred workerPool.Release runs at return. -/
def closeNilFault (h : ProcHandles) (maxWaitTime : Nat) : Option NilFault :=
  if h.stdinPipe = false then some .nilStdinPipe
  else if h.stdoutPipe = false then some .nilStdoutPipe
  else if h.stderrPipe = false then some .nilStderrPipe
  else if maxWaitTime = 0 ∧ h.group = false then some .nilGroup
  else if h.workerPool = false then some .nilWorkerPool
  else none

/-- A Proc as NewProc builds it, before Start: no process, empty registries,
all directions enabled; used to instantiate the bind theorems. -/
def procUnstarted : Proc :=
  { proc := none
    stdinChs := []
    stdoutChs := []
    stderrChs := []
    options :=
      { Name := "echo", Args := ["hello"], WorkDir := "", Env := []
        Stdin := true, Stdout := true, Stderr := true, MaxWaitTime := 0 } }

/-- The same Proc after a successful Start recorded pid 42. -/
def procStarted : Proc := { procUnstarted with proc := some 42 }

end DontStarve

namespace DontStarve

/-- Close applied to an already-closed channel is the identity. -/
theorem close_close {T : Type} (d : Channel T) : d.Close.Close = d.Close := by
  by_cases hd : d.closed = true
  · simp [Channel.Close, hd]
  · simp [Channel.Close, hd]

/-- Iterations of the reader loop whose ctx check sees a live context and whose
pool submissions all succeed just pass through to the rest of the run. -/
theorem listen_out_skip_clean (pre tail : List (CtxState × Option (String × GoErr)))
    (stop : ScanEnd) (hpre : ∀ x ∈ pre, x.1.done = false ∧ x.2 = none) :
    listenOutStreamResult (pre ++ tail) stop = listenOutStreamResult tail stop := by
  induction pre with
  | nil => rfl
  | cons x xs ih =>
    obtain ⟨hx1, hx2⟩ := hpre x (by simp)
    obtain ⟨c, sub⟩ := x
    simp only [List.cons_append, listenOutStreamResult, isCtxDone]
    simp only at hx1 hx2
    rw [hx1]
    simp only [if_false, Bool.false_eq_true]
    rw [hx2]
    exact ih (fun y hy => hpre y (by simp [hy]))

/-- C8: for every Channel and every N greater than 1, calling Close N times in
sequence leaves exactly the state one Close leaves (so the closed flag, the
buffered contents, and the behaviour of every subsequent operation agree);
calls after the first are no-ops. -/
theorem channel_close_idempotent {T : Type} (c : Channel T) (n : Nat) (h : 1 ≤ n) :
    Channel.Close^[n] c = c.Close ∧
      (Channel.Close^[n] c).closed = c.Close.closed ∧
      (Channel.Close^[n] c).buf = c.Close.buf := by
  have key : ∀ m, Channel.Close^[m] c.Close = c.Close := by
    intro m
    induction m with
    | zero => rfl
    | succ k ih => rw [Function.iterate_succ_apply, close_close]; exact ih
  obtain ⟨k, rfl⟩ : ∃ k, n = k + 1 := ⟨n - 1, by omega⟩
  rw [Function.iterate_succ_apply]
  exact ⟨key k, by rw [key k], by rw [key k]⟩

/-- Witness for C8 at a concrete channel and N = 3. -/
theorem channel_close_idempotent_witness :
    Channel.Close^[3] (MakeChannel Nat 2) = (MakeChannel Nat 2).Close :=
  (channel_close_idempotent (MakeChannel Nat 2) 3 (by decide)).1

/-- C3 counterexample: a capacity-1 channel holds item 42 when Close is
called, yet the very next Recv reports closed (no value) instead of returning
the buffered item: the closed-flag check precedes the dequeue. -/
theorem channel_recv_after_close_drops_buffer_cex :
    Channel.TrySend (MakeChannel Nat 1) 42 =
      .returned { closed := false, chClosed := false, buf := [42], cap := 1 } true ∧
    (Channel.Close
      { closed := false, chClosed := false, buf := [42], cap := 1 : Channel Nat }).buf
        = [42] ∧
    Channel.Recv (Channel.Close
      { closed := false, chClosed := false, buf := [42], cap := 1 : Channel Nat }) =
      .returned (Channel.Close
        { closed := false, chClosed := false, buf := [42], cap := 1 }) none := by
  decide

/-- C3 amended: once the closed flag is set, Recv and TryRecv immediately
report closed (present-value flag false) and never return remaining buffered
items; buffered contents are unreachable through them after Close. -/
theorem channel_recv_after_close_reports_closed {T : Type} [Inhabited T]
    (c : Channel T) (h : c.closed = true) :
    c.Recv = .returned c none ∧ c.TryRecv = .returned c none := by
  constructor
  · simp [Channel.Recv, h]
  · simp [Channel.TryRecv, h]

/-- Witness for the C3 amended theorem at a closed channel still holding 42. -/
theorem channel_recv_after_close_reports_closed_witness :
    Channel.Recv { closed := true, chClosed := true, buf := [42], cap := 1 : Channel Nat }
      = .returned { closed := true, chClosed := true, buf := [42], cap := 1 } none :=
  (channel_recv_after_close_reports_closed
    { closed := true, chClosed := true, buf := [42], cap := 1 } rfl).1

/-- C4 counterexample: Send on an already-closed channel returns immediately
without enqueuing, but its caller-visible result (Send is a void method) is
identical to that of a Send that successfully enqueues on an open channel, so
the caller receives no failure indication. -/
theorem channel_send_no_failure_indication_cex :
    sendCallerResult (Channel.Send (Channel.Close (MakeChannel Nat 1)) 7) =
      sendCallerResult (Channel.Send (MakeChannel Nat 1) 7) ∧
    Channel.Send (Channel.Close (MakeChannel Nat 1)) 7 =
      .returned (Channel.Close (MakeChannel Nat 1)) ∧
    (Channel.Close (MakeChannel Nat 1)).buf = [] ∧
    Channel.Send (MakeChannel Nat 1) 7 =
      .returned { closed := false, chClosed := false, buf := [7], cap := 1 } := by
  decide

/-- C4 amended: once the closed flag is set, Send returns immediately without
enqueuing (but with no failure indication, being a void method) and TrySend
returns false immediately; TrySend also returns false without waiting when the
queue is full; and a Send blocked waiting for capacity does not keep waiting
past a Close, but it is terminated by the runtime panic of sending on a closed
channel rather than by a failure return. -/
theorem channel_send_trySend_close_contract {T : Type} (c : Channel T) (v : T)
    (hcl : c.closed = true) :
    c.Send v = .returned c ∧
    c.TrySend v = .returned c false ∧
    (∀ d : Channel T, d.closed = false → d.chClosed = false →
      d.cap ≤ d.buf.length → d.TrySend v = .returned d false) ∧
    (∀ d : Channel T, d.Send v = .blocked d → rawSendStep d.Close v = .panicked) := by
  refine ⟨by simp [Channel.Send, hcl], by simp [Channel.TrySend, hcl], ?_, ?_⟩
  · intro d h1 h2 h3
    have hnl : ¬ d.buf.length < d.cap := by omega
    simp [Channel.TrySend, h1, h2, hnl]
  · intro d hb
    have hdc : d.closed = false := by
      by_contra hc
      have hc' : d.closed = true := by
        revert hc; cases d.closed <;> simp
      simp [Channel.Send, hc'] at hb
    have hclose : d.Close = { d with chClosed := true, closed := true } := by
      simp [Channel.Close, hdc]
    rw [hclose]
    simp [rawSendStep]

/-- Witness for the C4 amended theorem at a concrete closed channel. -/
theorem channel_send_trySend_close_contract_witness :
    Channel.Send { closed := true, chClosed := true, buf := [], cap := 0 : Channel Nat } 5
      = .returned { closed := true, chClosed := true, buf := [], cap := 0 } :=
  (channel_send_trySend_close_contract
    { closed := true, chClosed := true, buf := [], cap := 0 } 5 rfl).1

/-- C9 failing interleaving, evaluated on the code: on an open channel with
room, a Send that has already passed its flag check when a full Close runs
then executes the raw send on the closed underlying channel and panics; the
lock taken inside Close guards only the flag, not the raw send. -/
theorem channel_close_racing_send_panics :
    sendRacingClose (MakeChannel Nat 1) 0 .closeBetweenLoadAndSend = .panicked := by
  decide

/-- C1: for every direction, while p.proc is nil the PID sentinel is -1 and a
bind call with the direction enabled returns the freshly allocated Stream and
registers it under the subscriber name; once Start has succeeded (a real,
nonnegative pid is recorded) every bind call panics. -/
theorem bind_pipe_before_start_only (d : Dir) (p : Proc) (name : String) :
    (p.proc = none →
      p.PID = -1 ∧
        (dirEnabled d p.options = true →
          ∃ p', bindPipe d p name = .ok p' (some (MakeChannel Bytes 0)) ∧
            List.lookup name (dirRegistry d p') = some (MakeChannel Bytes 0))) ∧
    (∀ pid : Int, p.proc = some pid → 0 ≤ pid →
      bindPipe d p name = .panicked ("bind pipe after process started: " ++ name)) := by
  constructor
  · intro hnone
    have hpid : p.PID = -1 := by simp [Proc.PID, hnone]
    refine ⟨hpid, fun hen => ?_⟩
    cases d with
    | stdin =>
      refine ⟨{ p with stdinChs := mapSet p.stdinChs name (MakeChannel Bytes 0) }, ?_, ?_⟩
      · simp only [dirEnabled] at hen
        simp [bindPipe, Proc.StdinPipe, hpid, hen]
      · simp [dirRegistry, mapSet, List.lookup]
    | stdout =>
      refine ⟨{ p with stdoutChs := mapSet p.stdoutChs name (MakeChannel Bytes 0) }, ?_, ?_⟩
      · simp only [dirEnabled] at hen
        simp [bindPipe, Proc.StdoutPipe, hpid, hen]
      · simp [dirRegistry, mapSet, List.lookup]
    | stderr =>
      refine ⟨{ p with stderrChs := mapSet p.stderrChs name (MakeChannel Bytes 0) }, ?_, ?_⟩
      · simp only [dirEnabled] at hen
        simp [bindPipe, Proc.StderrPipe, hpid, hen]
      · simp [dirRegistry, mapSet, List.lookup]
  · intro pid hsome hge
    have hpid : p.PID = pid := by simp [Proc.PID, hsome]
    have hne : p.PID ≠ -1 := by omega
    cases d <;>
      simp [bindPipe, Proc.StdinPipe, Proc.StdoutPipe, Proc.StderrPipe, hne]

/-- Witness for C1 in the stdout direction: binding on the unstarted Proc
succeeds and registers the stream; binding after Start (pid 42) panics. -/
theorem bind_pipe_before_start_only_witness :
    (∃ p', bindPipe .stdout procUnstarted "sub" = .ok p' (some (MakeChannel Bytes 0)) ∧
      List.lookup "sub" (dirRegistry .stdout p') = some (MakeChannel Bytes 0)) ∧
    bindPipe .stdout procStarted "sub" =
      .panicked ("bind pipe after process started: " ++ "sub") :=
  ⟨((bind_pipe_before_start_only .stdout procUnstarted "sub").1 rfl).2 rfl,
    (bind_pipe_before_start_only .stdout procStarted "sub").2 42 rfl (by decide)⟩

/-- C7 counterexample: a run in which the cancellation scope has fired with
context.Canceled at the first check and the scanner then stops on a read error
returns nil, although the stream never reached end of file and the scope's
error (Canceled) is not nil: the code maps a Canceled scope to a nil return
instead of propagating the scope's error. -/
theorem listen_out_nil_on_canceled_cex :
    listenOutStreamResult [({ done := true, err := some GoErr.canceled }, none)]
        (.readErr (.ioErr "bufio.Scanner: token too long")) = none ∧
    ScanEnd.readErr (.ioErr "bufio.Scanner: token too long") ≠ ScanEnd.eof ∧
    (some GoErr.canceled ≠ (none : Option GoErr)) := by
  decide

/-- C7 amended: along a run whose checks all see a live scope and whose pool
submissions all succeed, the reader task returns nil when the stream reached
end of file and the read error unchanged when a read error (including an
over-long line) stopped the scan; when the scope fires at a check, the task
returns nil if the scope's error is context.Canceled and the scope's error
itself otherwise. -/
theorem listen_out_result_cases (pre : List (CtxState × Option (String × GoErr)))
    (c : CtxState) (s : Option (String × GoErr))
    (rest : List (CtxState × Option (String × GoErr))) (stop : ScanEnd)
    (hpre : ∀ x ∈ pre, x.1.done = false ∧ x.2 = none) :
    (listenOutStreamResult pre stop =
      match stop with
      | .eof => none
      | .readErr e => some e) ∧
    (c.done = true →
      listenOutStreamResult (pre ++ (c, s) :: rest) stop =
        if c.err = some GoErr.canceled then none else c.err) := by
  constructor
  · have h := listen_out_skip_clean pre [] stop hpre
    rw [List.append_nil] at h
    rw [h]
    cases stop <;> rfl
  · intro hc
    rw [listen_out_skip_clean pre ((c, s) :: rest) stop hpre]
    simp only [listenOutStreamResult, isCtxDone, hc, if_true]
    by_cases he : c.err = some GoErr.canceled
    · simp [he]
    · simp [he]

/-- Witness for the C7 amended theorem: a clean one-line run ending at end of
file returns nil, and a run whose second check sees the scope fired with a
deadline-exceeded error returns that error. -/
theorem listen_out_result_cases_witness :
    listenOutStreamResult [({ done := false, err := none }, none)] .eof = none ∧
    listenOutStreamResult
        [({ done := false, err := none }, none),
          ({ done := true, err := some GoErr.deadlineExceeded }, none)] .eof =
      some GoErr.deadlineExceeded := by
  constructor
  · exact (listen_out_result_cases [({ done := false, err := none }, none)]
      { done := true, err := none } none [] .eof (by decide)).1
  · have h := (listen_out_result_cases [({ done := false, err := none }, none)]
      { done := true, err := some GoErr.deadlineExceeded } none [] .eof (by decide)).2 rfl
    simpa using h

/-- C2: every possible winner of the dispatch select completes the task within
the 20 second deadline (the task never blocks past it), and when neither the
enqueue becomes ready nor the cancellation scope fires within the deadline,
the only possible winner is the timer and the chunk is dropped for that
subscriber (its stream buffer is unchanged). The select times range over each
registered subscriber's own dispatch task. -/
theorem dispatch_deadline_bounds_and_drop (t : SelTimes) (c : SelCase)
    (hw : possibleWinner t c) (chunk : Bytes) (buf : List Bytes) :
    selMin t ≤ dispatchDeadline ∧
    ((∀ s, t.ctxDone = some s → dispatchDeadline < s) →
      (∀ s, t.enqReady = some s → dispatchDeadline < s) →
        c = .timeout ∧ dispatchChunk c chunk buf = buf) := by
  constructor
  · exact le_trans (min_le_left _ _) (min_le_left _ _)
  · intro hctx henq
    have h1 : dispatchDeadline ≤ t.ctxDone.getD dispatchDeadline := by
      cases hc : t.ctxDone with
      | none => simp
      | some s => simpa using le_of_lt (hctx s hc)
    have h2 : dispatchDeadline ≤ t.enqReady.getD dispatchDeadline := by
      cases he : t.enqReady with
      | none => simp
      | some s => simpa using le_of_lt (henq s he)
    have hmin : selMin t = dispatchDeadline := by
      unfold selMin
      rw [min_eq_left h1, min_eq_left h2]
    simp only [possibleWinner] at hw
    rw [hmin] at hw
    cases c with
    | timeout => exact ⟨rfl, rfl⟩
    | ctxDone =>
      simp only [caseTime] at hw
      exact absurd (hctx dispatchDeadline hw) (lt_irrefl _)
    | enqueue =>
      simp only [caseTime] at hw
      exact absurd (henq dispatchDeadline hw) (lt_irrefl _)

/-- Witness for C2: with the scope never firing and the subscriber only ready
at 100 seconds, the timer is a possible winner, the completion time is within
the deadline, and the chunk is dropped. -/
theorem dispatch_deadline_bounds_and_drop_witness :
    selMin { ctxDone := none, enqReady := some 100 } ≤ dispatchDeadline ∧
    dispatchChunk .timeout [1, 2] [] = [] := by
  have h := dispatch_deadline_bounds_and_drop
    { ctxDone := none, enqReady := some 100 } .timeout rfl [1, 2] []
  exact ⟨h.1,
    (h.2 (by intro s hs; exact Option.noConfusion hs)
      (by intro s hs; cases hs; decide)).2⟩

/-- C5: with MaxWaitTime zero the final wait of Proc.close returns the task
group's result (whatever the raced events would do); with a nonzero
MaxWaitTime it returns context.DeadlineExceeded when the timer wins the race
against the process's exit wait and the wait's own result otherwise. The
deadline error is distinct from every process-failure error, the zero case
performs the group wait, and no step of the close sequence kills the
process. -/
theorem close_final_wait_behavior (mw : Nat) (groupRes cmdRes : Option GoErr)
    (hmw : mw ≠ 0) :
    closeResult 0 groupRes .cmdWaitReturns cmdRes = groupRes ∧
    closeResult 0 groupRes .timerFires cmdRes = groupRes ∧
    closeResult mw groupRes .timerFires cmdRes = some .deadlineExceeded ∧
    closeResult mw groupRes .cmdWaitReturns cmdRes = cmdRes ∧
    (∀ code, GoErr.deadlineExceeded ≠ GoErr.exitErr code) ∧
    (∀ msg, GoErr.deadlineExceeded ≠ GoErr.ioErr msg) ∧
    ProcAction.kill ∉ closeActions mw ∧
    ProcAction.kill ∉ closeActions 0 ∧
    ProcAction.waitGroup ∈ closeActions 0 ∧
    ProcAction.waitCmdRaced ∈ closeActions mw := by
  refine ⟨rfl, rfl, by simp [closeResult, hmw], by simp [closeResult, hmw],
    fun code => by simp, fun msg => by simp, ?_, by decide, by decide, ?_⟩
  · simp [closeActions, hmw]
  · simp [closeActions, hmw]

/-- Witness for C5 at MaxWaitTime 5 seconds: the timer winning yields the
deadline-exceeded error even though the group had recorded an exit failure. -/
theorem close_final_wait_behavior_witness :
    closeResult 5 (some (.exitErr 1)) .timerFires none = some GoErr.deadlineExceeded :=
  (close_final_wait_behavior 5 (some (.exitErr 1)) none (by decide)).2.2.1

/-- C6: on a started Proc, Terminate, Interrupt and Kill each perform the full
close sequence followed by delivery of SIGTERM, SIGINT and SIGKILL
respectively, and return errors.Join of the close error and the signal error:
every non-nil input error appears in the combined result, and the result is
nil exactly when both are nil. -/
theorem terminate_interrupt_kill_combine (mw : Nat) (ce se : Option GoErr) :
    Terminate true mw ce se =
      (closeActions mw ++ [ProcAction.signal .SIGTERM], errorsJoin ce se) ∧
    Interrupt true mw ce se =
      (closeActions mw ++ [ProcAction.signal .SIGINT], errorsJoin ce se) ∧
    Kill true mw ce se =
      (closeActions mw ++ [ProcAction.signal .SIGKILL], errorsJoin ce se) ∧
    (∀ e, ce = some e → e ∈ errorsJoin ce se) ∧
    (∀ e, se = some e → e ∈ errorsJoin ce se) ∧
    (errorsJoin ce se = [] ↔ ce = none ∧ se = none) := by
  refine ⟨rfl, rfl, rfl, ?_, ?_, ?_⟩
  · intro e he
    subst he
    simp [errorsJoin]
  · intro e he
    subst he
    cases ce <;> simp [errorsJoin]
  · cases ce <;> cases se <;> simp [errorsJoin]

/-- Witness for C6: with both a close error and a signal error, Terminate
returns both in order after the close sequence and the SIGTERM delivery. -/
theorem terminate_interrupt_kill_combine_witness :
    Terminate true 0 (some (.ioErr "close failed")) (some (.ioErr "signal failed")) =
      (closeActions 0 ++ [ProcAction.signal .SIGTERM],
        [GoErr.ioErr "close failed", GoErr.ioErr "signal failed"]) ∧
    GoErr.ioErr "close failed" ∈
      errorsJoin (some (.ioErr "close failed")) (some (.ioErr "signal failed")) := by
  have h := terminate_interrupt_kill_combine 0
    (some (.ioErr "close failed")) (some (.ioErr "signal failed"))
  exact ⟨by rw [h.1]; rfl, h.2.2.2.1 _ rfl⟩

/-- C10: the close sequence closes all three pipe handles and releases the
worker pool unconditionally (no option guards), so the shutdown invoked by
Terminate, Interrupt or Kill runs without a nil-handle fault exactly when all
three I/O directions were enabled at configuration time; with any direction
disabled it dereferences a nil handle instead of returning an error. -/
theorem shutdown_nil_fault_iff (o : Options) (mw : Nat) :
    (closeNilFault (NewProcHandles o) mw = none ↔
      o.Stdin = true ∧ o.Stdout = true ∧ o.Stderr = true) ∧
    ProcAction.closeStdinPipe ∈ closeActions mw ∧
    ProcAction.closeStdoutPipe ∈ closeActions mw ∧
    ProcAction.closeStderrPipe ∈ closeActions mw ∧
    ProcAction.releaseWorkerPool ∈ closeActions mw := by
  have hmem : ProcAction.closeStdinPipe ∈ closeActions mw ∧
      ProcAction.closeStdoutPipe ∈ closeActions mw ∧
      ProcAction.closeStderrPipe ∈ closeActions mw ∧
      ProcAction.releaseWorkerPool ∈ closeActions mw := by
    unfold closeActions
    by_cases h : mw = 0 <;> simp [h]
  refine ⟨?_, hmem.1, hmem.2.1, hmem.2.2.1, hmem.2.2.2⟩
  cases hi : o.Stdin <;> cases ho : o.Stdout <;> cases he : o.Stderr <;>
    simp [closeNilFault, NewProcHandles, hi, ho, he]

end DontStarve
